import Mathlib

/-!
Shallow embedding of the appalapapa therapy-practice service layer: the
Person / TherapySession / AuditLog data model (app/models/person.py,
app/models/session.py, app/models/audit_log.py, app/models/mixins.py),
the PatientService and SessionService operations
(app/services/patient_service.py, app/services/session_service.py), the
display formatters (app/utils/formatters.py) and the dashboard aggregator
(PatientService.get_dashboard_data).

Modelling conventions:
* The relational store is a `DBState`: lists of rows in insertion order,
  plus autoincrement counters.  SQLAlchemy queries become list
  `filter` / `find?` over those lists.
* Python `datetime.date` values are embedded as `Int` via the proleptic
  Gregorian ordinal (`date.toordinal`), which preserves comparisons and
  `timedelta(days = n)` arithmetic exactly.  `datetime.utcnow` timestamps
  are an abstract `Nat` clock passed as a `now` argument.
* Python floats for prices are embedded as `ℚ`.
* Python truthiness of optional ids (`if user_id:`) is `truthy` /
  `truthyNat`: `None` and `0` are falsy.
* The storage-level UNIQUE constraint on `persons.name`
  (`db.Column(..., unique=True)`, app/models/person.py line 28) is part of
  the model: a commit that inserts a `Person` whose name any stored row
  already carries (soft-deleted rows included) fails, and the service's
  `except` branch returns its generic error message.
* Audit entries keep action, table name, record id, user id and the
  old/new value dictionaries; ip address, user agent and the entry
  timestamp are request metadata external to the properties studied here.
-/

/-- A value stored in an audit-log dictionary (JSON scalar). -/
inductive AVal where
  | vs : String → AVal
  | vb : Bool → AVal
  | vq : ℚ → AVal
  | vi : Int → AVal
  | vnone : AVal
deriving DecidableEq, Repr

/-- A JSON-like dictionary of audit values. -/
abbrev ADict := List (String × AVal)

/-- Person row (app/models/person.py), with the TimestampMixin omitted and
the SoftDeleteMixin / AuditMixin columns inlined. -/
structure Person where
  id : Nat
  name : String
  notes : Option String
  is_active : Bool
  created_by_id : Option Int
  updated_by_id : Option Int
  deleted_at : Option Nat
  deleted_by_id : Option Int
deriving DecidableEq, Repr

/-- TherapySession row (app/models/session.py). `session_date` is the
Gregorian ordinal of the Python `date`. -/
structure TherapySession where
  id : Nat
  person_id : Nat
  session_date : Int
  session_price : ℚ
  pending : Bool
  notes : Option String
  created_by_id : Option Int
  updated_by_id : Option Int
  deleted_at : Option Nat
  deleted_by_id : Option Int
deriving DecidableEq, Repr

/-- AuditLog row (app/models/audit_log.py), without the request metadata
columns. -/
structure AuditLog where
  action : String
  table_name : String
  record_id : Option Nat
  user_id : Option Int
  old_values : Option ADict
  new_values : Option ADict
deriving DecidableEq, Repr

/-- The relational store: all rows in insertion order plus the
autoincrement counters for the two primary keys. -/
structure DBState where
  persons : List Person
  sessions : List TherapySession
  audit_logs : List AuditLog
  next_person_id : Nat
  next_session_id : Nat
deriving DecidableEq, Repr

/-- Python truthiness of an optional integer id: `None` and `0` are falsy
(as in `if user_id:` in SoftDeleteMixin.soft_delete). -/
def truthy : Option Int → Bool
  | none => false
  | some v => v != 0

/-- Python truthiness of an optional natural id (`if person_id:` in
SessionService.calculate_totals). -/
def truthyNat : Option Nat → Bool
  | none => false
  | some n => n != 0

/-- SoftDeleteMixin.is_deleted for persons. -/
def Person.is_deleted (p : Person) : Bool := p.deleted_at.isSome

/-- SoftDeleteMixin.soft_delete for persons: `deleted_at` is always set to
now; `deleted_by_id` is assigned only when `user_id` is truthy. -/
def Person.soft_delete (p : Person) (user_id : Option Int) (now : Nat) : Person :=
  { p with deleted_at := some now
         , deleted_by_id := if truthy user_id then user_id else p.deleted_by_id }

/-- SoftDeleteMixin.restore for persons: clears both soft-delete marks. -/
def Person.restore (p : Person) : Person :=
  { p with deleted_at := none, deleted_by_id := none }

/-- SoftDeleteMixin.is_deleted for sessions. -/
def TherapySession.is_deleted (s : TherapySession) : Bool := s.deleted_at.isSome

/-- SoftDeleteMixin.soft_delete for sessions. -/
def TherapySession.soft_delete (s : TherapySession) (user_id : Option Int) (now : Nat) :
    TherapySession :=
  { s with deleted_at := some now
         , deleted_by_id := if truthy user_id then user_id else s.deleted_by_id }

/-- SoftDeleteMixin.restore for sessions. -/
def TherapySession.restore (s : TherapySession) : TherapySession :=
  { s with deleted_at := none, deleted_by_id := none }

/-- TherapySession.toggle_pending (app/models/session.py lines 71-84):
flips `pending`, records the actor when truthy, returns the new value via
the updated record. -/
def TherapySession.toggle_pending (s : TherapySession) (user_id : Option Int) :
    TherapySession :=
  { s with pending := !s.pending
         , updated_by_id := if truthy user_id then user_id else s.updated_by_id }

/-- TherapySession.status_text. -/
def TherapySession.status_text (s : TherapySession) : String :=
  if s.pending then "Pendiente" else "Pagado"

/-- All non-deleted persons, in storage order (`Person.query_active()`). -/
def DBState.activePersons (st : DBState) : List Person :=
  st.persons.filter fun p => p.deleted_at.isNone

/-- All non-deleted sessions, in storage order
(`TherapySession.query_active()`). -/
def DBState.activeSessions (st : DBState) : List TherapySession :=
  st.sessions.filter fun s => s.deleted_at.isNone

/-- `Person.query_active().filter_by(id=person_id).first()`. -/
def Person.query_active_by_id (st : DBState) (person_id : Nat) : Option Person :=
  st.persons.find? fun q => q.deleted_at.isNone && q.id == person_id

/-- `Person.get_by_name` (app/models/person.py): first active person with
the given name. -/
def Person.get_by_name (st : DBState) (name : String) : Option Person :=
  st.persons.find? fun q => q.deleted_at.isNone && q.name == name

/-- The `person.therapy_sessions` relationship (app/models/person.py line
33): every session of the person, soft-deleted ones included. -/
def Person.therapy_sessions (p : Person) (st : DBState) : List TherapySession :=
  st.sessions.filter fun s => s.person_id == p.id

/-- `Person.pending_sessions`: `therapy_sessions.filter_by(pending=True)`
(no soft-delete filter in the source). -/
def Person.pending_sessions (p : Person) (st : DBState) : List TherapySession :=
  (p.therapy_sessions st).filter fun s => s.pending

/-- `Person.pending_total`: sum of `session_price` over
`pending_sessions`. -/
def Person.pending_total (p : Person) (st : DBState) : ℚ :=
  ((p.pending_sessions st).map fun s => s.session_price).sum

/-- `Person.session_count`: `therapy_sessions.count()`. -/
def Person.session_count (p : Person) (st : DBState) : Nat :=
  (p.therapy_sessions st).length

/-- `Person.pending_count`: `pending_sessions.count()`. -/
def Person.pending_count (p : Person) (st : DBState) : Nat :=
  (p.pending_sessions st).length

/-- Helper embedding an optional string as an audit value. -/
def optStr : Option String → AVal
  | none => AVal.vnone
  | some s => AVal.vs s

/-- `Person.to_dict` (without the `created_at` timestamp, which is not
modelled). -/
def Person.to_dict (p : Person) (st : DBState) : ADict :=
  [ ("id", AVal.vi p.id)
  , ("name", AVal.vs p.name)
  , ("notes", optStr p.notes)
  , ("is_active", AVal.vb p.is_active)
  , ("session_count", AVal.vi (p.session_count st))
  , ("pending_count", AVal.vi (p.pending_count st))
  , ("pending_total", AVal.vq (p.pending_total st)) ]

/-- `TherapySession.to_dict` (without `created_at`). -/
def TherapySession.to_dict (s : TherapySession) : ADict :=
  [ ("id", AVal.vi s.id)
  , ("person_id", AVal.vi s.person_id)
  , ("session_date", AVal.vi s.session_date)
  , ("session_price", AVal.vq s.session_price)
  , ("pending", AVal.vb s.pending)
  , ("status", AVal.vs s.status_text)
  , ("notes", optStr s.notes) ]

/-- A character Python's `str.strip()` removes. -/
def isPySpace (c : Char) : Bool :=
  c == ' ' || c == '\t' || c == '\n' || c == '\r' || c == '\x0b' || c == '\x0c'

/-- Python `str.strip()` on the embedded string. -/
def pyStrip (s : String) : String :=
  String.mk (((s.data.dropWhile isPySpace).reverse.dropWhile isPySpace).reverse)

/-- Session filter tokens (app/utils/constants.py). -/
def ALL_FILTER : String := "all"

/-- Dashboard filter token for pending sessions. -/
def PENDING_FILTER : String := "pending"

/-- Dashboard filter token for paid sessions. -/
def PAID_FILTER : String := "paid"

/-- PatientService.get_by_id: active-only lookup. -/
def PatientService.get_by_id (st : DBState) (person_id : Nat) : Option Person :=
  Person.query_active_by_id st person_id

/-- PatientService.create (app/services/patient_service.py lines 63-108).
Returns the next state and the `(success, person, message)` tuple.  The
commit is modelled including the storage-level UNIQUE constraint on
`persons.name`, whose violation lands in the `except` branch. -/
def PatientService.create (st : DBState) (name : String) (user_id : Option Int)
    (notes : Option String) : DBState × Bool × Option Person × String :=
  if pyStrip name == "" then (st, false, none, "El nombre es requerido.")
  else
    match Person.get_by_name st (pyStrip name) with
    | some _ => (st, false, none, "Ya existe un paciente con ese nombre.")
    | none =>
      if st.persons.any (fun q => q.name == pyStrip name) then
        (st, false, none, "Error al crear el paciente. Intente nuevamente.")
      else
        let person : Person :=
          { id := st.next_person_id, name := pyStrip name, notes := notes
          , is_active := true, created_by_id := user_id, updated_by_id := none
          , deleted_at := none, deleted_by_id := none }
        let log : AuditLog :=
          { action := "CREATE", table_name := "persons", record_id := some person.id
          , user_id := user_id, old_values := none
          , new_values := some [("name", AVal.vs (pyStrip name)), ("notes", optStr notes)] }
        ( { st with persons := st.persons ++ [person]
                  , next_person_id := st.next_person_id + 1
                  , audit_logs := st.audit_logs ++ [log] }
        , true, some person, "Paciente agregado correctamente." )

/-- PatientService.delete (app/services/patient_service.py lines 173-223).
The soft path soft-deletes the person and every row of
`person.therapy_sessions` (all of the person's sessions, already-deleted
ones included); the hard path removes the person and, by storage cascade,
its sessions. -/
def PatientService.delete (st : DBState) (person_id : Nat) (user_id : Option Int)
    (soft : Bool) (now : Nat) : DBState × Bool × String :=
  match PatientService.get_by_id st person_id with
  | none => (st, false, "Paciente no encontrado.")
  | some person =>
    let old_values := person.to_dict st
    let st' :=
      if soft then
        { st with
          persons := st.persons.map fun p =>
            if p.id == person.id then p.soft_delete user_id now else p
        , sessions := st.sessions.map fun s =>
            if s.person_id == person.id then s.soft_delete user_id now else s }
      else
        { st with
          persons := st.persons.filter fun p => !(p.id == person.id)
        , sessions := st.sessions.filter fun s => !(s.person_id == person.id) }
    let log : AuditLog :=
      { action := if soft then "SOFT_DELETE" else "DELETE", table_name := "persons"
      , record_id := some person_id, user_id := user_id
      , old_values := some old_values, new_values := none }
    ({ st' with audit_logs := st.audit_logs ++ [log] }, true,
      "Paciente eliminado correctamente.")

/-- PatientService.restore (app/services/patient_service.py lines 226-265).
Looks the person up among all rows (deleted included), requires it to be
deleted, then calls `restore()` on the person and on every row of
`person.therapy_sessions` — all of the person's sessions. -/
def PatientService.restore (st : DBState) (person_id : Nat) (user_id : Option Int) :
    DBState × Bool × String :=
  match st.persons.find? (fun q => q.id == person_id) with
  | none => (st, false, "Paciente no encontrado.")
  | some person =>
    if !person.is_deleted then (st, false, "Este paciente no está eliminado.")
    else
      let log : AuditLog :=
        { action := "RESTORE", table_name := "persons", record_id := some person_id
        , user_id := user_id, old_values := none, new_values := none }
      ( { st with
          persons := st.persons.map fun p =>
            if p.id == person.id then p.restore else p
        , sessions := st.sessions.map fun s =>
            if s.person_id == person.id then s.restore else s
        , audit_logs := st.audit_logs ++ [log] }
      , true, "Paciente restaurado correctamente." )

/-- `TherapySession.query_active().filter_by(id=session_id).first()`. -/
def TherapySession.query_active_by_id (st : DBState) (session_id : Nat) :
    Option TherapySession :=
  st.sessions.find? fun t => t.deleted_at.isNone && t.id == session_id

/-- SessionService.get_by_id: active-only lookup. -/
def SessionService.get_by_id (st : DBState) (session_id : Nat) : Option TherapySession :=
  TherapySession.query_active_by_id st session_id

/-- SessionService.create (app/services/session_service.py lines 36-106):
checks the patient is active, the price strictly positive, and the date at
most `today + 7` (no lower bound), then inserts the session and writes a
CREATE audit entry.  `today` embeds `date.today()`. -/
def SessionService.create (st : DBState) (person_id : Nat) (session_date : Int)
    (session_price : ℚ) (user_id : Option Int) (pending : Bool)
    (notes : Option String) (today : Int) :
    DBState × Bool × Option TherapySession × String :=
  match Person.query_active_by_id st person_id with
  | none => (st, false, none, "Paciente no encontrado.")
  | some person =>
    if session_price ≤ 0 then (st, false, none, "El precio debe ser mayor a cero.")
    else if session_date > today + 7 then
      (st, false, none, "No se pueden agendar sesiones con más de 7 días de anticipación.")
    else
      let s : TherapySession :=
        { id := st.next_session_id, person_id := person_id
        , session_date := session_date, session_price := session_price
        , pending := pending, notes := notes, created_by_id := user_id
        , updated_by_id := none, deleted_at := none, deleted_by_id := none }
      let log : AuditLog :=
        { action := "CREATE", table_name := "therapy_sessions", record_id := some s.id
        , user_id := user_id, old_values := none
        , new_values := some
            [ ("person_id", AVal.vi person_id)
            , ("person_name", AVal.vs person.name)
            , ("session_date", AVal.vi session_date)
            , ("session_price", AVal.vq session_price)
            , ("pending", AVal.vb pending) ] }
      ( { st with sessions := st.sessions ++ [s]
                , next_session_id := st.next_session_id + 1
                , audit_logs := st.audit_logs ++ [log] }
      , true, some s, "Sesión agregada correctamente." )

/-- SessionService.update (app/services/session_service.py lines 108-167):
active-only lookup, strict price check, tri-state `pending` (None keeps
the current value), snapshot-then-mutate-then-audit. -/
def SessionService.update (st : DBState) (session_id : Nat) (session_date : Int)
    (session_price : ℚ) (user_id : Option Int) (pending : Option Bool)
    (notes : Option String) : DBState × Bool × Option TherapySession × String :=
  match SessionService.get_by_id st session_id with
  | none => (st, false, none, "Sesión no encontrada.")
  | some s =>
    if session_price ≤ 0 then (st, false, none, "El precio debe ser mayor a cero.")
    else
      let s' : TherapySession :=
        { s with session_date := session_date, session_price := session_price
               , pending := pending.getD s.pending, notes := notes
               , updated_by_id := user_id }
      let log : AuditLog :=
        { action := "UPDATE", table_name := "therapy_sessions", record_id := some s.id
        , user_id := user_id, old_values := some s.to_dict
        , new_values := some s'.to_dict }
      ( { st with
          sessions := st.sessions.map fun t => if t.id == s.id then s' else t
        , audit_logs := st.audit_logs ++ [log] }
      , true, some s', "Sesión actualizada correctamente." )

/-- SessionService.delete (app/services/session_service.py lines 169-213):
soft path marks the single session deleted; no cascade. -/
def SessionService.delete (st : DBState) (session_id : Nat) (user_id : Option Int)
    (soft : Bool) (now : Nat) : DBState × Bool × String :=
  match SessionService.get_by_id st session_id with
  | none => (st, false, "Sesión no encontrada.")
  | some s =>
    let st' :=
      if soft then
        { st with sessions := st.sessions.map fun t =>
            if t.id == s.id then t.soft_delete user_id now else t }
      else
        { st with sessions := st.sessions.filter fun t => !(t.id == s.id) }
    let log : AuditLog :=
      { action := if soft then "SOFT_DELETE" else "DELETE"
      , table_name := "therapy_sessions", record_id := some session_id
      , user_id := user_id, old_values := some s.to_dict, new_values := none }
    ({ st' with audit_logs := st.audit_logs ++ [log] }, true,
      "Sesión eliminada correctamente.")

/-- SessionService.toggle_payment_status (app/services/session_service.py
lines 215-253): flips `pending` on the active session, appends exactly one
UPDATE audit entry recording the old and new `pending` values, and returns
the new value with a status message. -/
def SessionService.toggle_payment_status (st : DBState) (session_id : Nat)
    (user_id : Option Int) : DBState × Bool × Option Bool × String :=
  match SessionService.get_by_id st session_id with
  | none => (st, false, none, "Sesión no encontrada.")
  | some s =>
    let newPending := !s.pending
    let log : AuditLog :=
      { action := "UPDATE", table_name := "therapy_sessions", record_id := some s.id
      , user_id := user_id
      , old_values := some [("pending", AVal.vb s.pending)]
      , new_values := some [("pending", AVal.vb newPending)] }
    ( { st with
        sessions := st.sessions.map fun t =>
          if t.id == s.id then t.toggle_pending user_id else t
      , audit_logs := st.audit_logs ++ [log] }
    , true, some newPending
    , "Sesión marcada como " ++ (if newPending then "pendiente." else "pagada.") )

/-- The `(pending_total, paid_total, grand_total)` record returned by
SessionService.calculate_totals. -/
structure Totals where
  pending_total : ℚ
  paid_total : ℚ
  grand_total : ℚ
deriving DecidableEq, Repr

/-- SessionService.calculate_totals (app/services/session_service.py lines
293-317): sums over active sessions, scoped to one patient when
`person_id` is truthy. -/
def SessionService.calculate_totals (st : DBState) (person_id : Option Nat) : Totals :=
  let sessions :=
    if truthyNat person_id then
      st.activeSessions.filter fun s => some s.person_id == person_id
    else st.activeSessions
  let pending_total := ((sessions.filter fun s => s.pending).map fun s => s.session_price).sum
  let paid_total := ((sessions.filter fun s => !s.pending).map fun s => s.session_price).sum
  ⟨pending_total, paid_total, pending_total + paid_total⟩

/-- SessionService.get_recent_sessions is not needed by the claims and is
omitted; the remaining embedded component is the dashboard aggregator and
its display formatters. -/
def SPANISH_DAYS : List String :=
  ["Lunes", "Martes", "Miércoles", "Jueves", "Viernes", "Sábado", "Domingo"]

/-- Zero-padded two-digit rendering used by `%d` and `%m`. -/
def pad2 (n : Int) : String :=
  if n < 10 then "0" ++ toString n else toString n

/-- Civil (year, month, day) of a Python date ordinal, by the standard
era-of-400-years conversion; all divisions are floor divisions of
non-negative quantities for any real date (`o ≥ 1`). -/
def civilFromOrdinal (o : Int) : Int × Int × Int :=
  let z := o + 305
  let era := z.fdiv 146097
  let doe := z - era * 146097
  let yoe := (doe - doe.fdiv 1460 + doe.fdiv 36524 - doe.fdiv 146096).fdiv 365
  let doy := doe - (365 * yoe + yoe.fdiv 4 - yoe.fdiv 100)
  let mp := (5 * doy + 2).fdiv 153
  let d := doy - (153 * mp + 2).fdiv 5 + 1
  let m := mp + (if mp < 10 then 3 else -9)
  (yoe + era * 400 + (if m ≤ 2 then 1 else 0), m, d)

/-- format_date (app/utils/formatters.py) on a date ordinal:
`"<SpanishWeekday> DD/MM/YYYY"`; Python's `date.weekday()` is Monday-based
and ordinal 1 (0001-01-01) is a Monday. -/
def format_date (o : Int) : String :=
  let c := civilFromOrdinal o
  (SPANISH_DAYS.getD ((o - 1).emod 7).toNat "") ++ " "
    ++ pad2 c.2.2 ++ "/" ++ pad2 c.2.1 ++ "/" ++ toString c.1

/-- Rounding of a rational to the nearest integer, ties to even, as
Python's float formatting rounds. -/
def roundHalfEven (x : ℚ) : Int :=
  let f := x.floor
  if x - f < 1 / 2 then f
  else if x - f > 1 / 2 then f + 1
  else if f % 2 = 0 then f else f + 1

/-- Inserts a thousands separator after every three digits of a reversed
digit list. -/
def commaRevAux : List Char → Nat → List Char
  | [], _ => []
  | c :: cs, i =>
    c :: (if (i + 1) % 3 == 0 && !cs.isEmpty
          then ',' :: commaRevAux cs (i + 1)
          else commaRevAux cs (i + 1))

/-- `"{n:,}"`: decimal digits of `n` with thousands separators. -/
def addThousands (n : Nat) : String :=
  String.mk ((commaRevAux (toString n).data.reverse 0).reverse)

/-- format_price (app/utils/formatters.py): `"$" ++ f"{price:,.2f}"` —
two decimals, thousands separators, the sign between `$` and the
digits as Python renders negative numbers. -/
def format_price (q : ℚ) : String :=
  let cents := roundHalfEven (q * 100)
  let a := cents.natAbs
  "$" ++ (if cents < 0 then "-" else "")
    ++ addThousands (a / 100) ++ "."
    ++ (if a % 100 < 10 then "0" ++ toString (a % 100) else toString (a % 100))

/-- One row of the dashboard's LEFT OUTER JOIN of active persons with
their active sessions: the session columns are `none` on a join miss. -/
structure JoinRow where
  person_id : Nat
  name : String
  session_id : Option Nat
  session_date : Option Int
  session_price : Option ℚ
  pending : Option Bool
deriving DecidableEq, Repr

/-- The join rows contributed by one active person: one row per active
session, or a single all-`none` row when the person has no active
session. -/
def perPersonRows (st : DBState) (p : Person) : List JoinRow :=
  match st.sessions.filter (fun s => s.person_id == p.id && s.deleted_at.isNone) with
  | [] => [⟨p.id, p.name, none, none, none, none⟩]
  | ss => ss.map fun s =>
      ⟨p.id, p.name, some s.id, some s.session_date, some s.session_price, some s.pending⟩

/-- The full outer join, walking the given persons in order. -/
def rowsOfPersons (st : DBState) : List Person → List JoinRow
  | [] => []
  | p :: ps => perPersonRows st p ++ rowsOfPersons st ps

/-- The WHERE clause the dashboard adds for the `pending` / `paid` filter
tokens; a NULL `pending` (join-miss row) satisfies neither. -/
def filterRows (show_filter : String) (rows : List JoinRow) : List JoinRow :=
  if show_filter == PENDING_FILTER then rows.filter fun r => r.pending == some true
  else if show_filter == PAID_FILTER then rows.filter fun r => r.pending == some false
  else rows

/-- Kernel-computable strict lexicographic order on character lists (the
embedding of string comparison for ORDER BY Person.name). -/
def charListLt : List Char → List Char → Bool
  | [], [] => false
  | [], _ :: _ => true
  | _ :: _, [] => false
  | a :: as, b :: bs => if a < b then true else if b < a then false else charListLt as bs

/-- String order used by the dashboard's ORDER BY. -/
def strLt (a b : String) : Bool := charListLt a.data b.data

/-- Sort key for the session-date column; a NULL date only ever occurs on
the unique join-miss row of a session-less person, so its relative order
within a person never matters. -/
def dKey : Option Int → Int
  | none => 0
  | some d => d

/-- `ORDER BY Person.name, TherapySession.session_date` as a total Boolean
comparison on join rows. -/
def rowLe (a b : JoinRow) : Bool :=
  strLt a.name b.name || (a.name == b.name && decide (dKey a.session_date ≤ dKey b.session_date))

/-- Stable insertion of an element into a sorted list. -/
def insertSorted {α : Type} (le : α → α → Bool) (a : α) : List α → List α
  | [] => [a]
  | b :: bs => if le a b then a :: b :: bs else b :: insertSorted le a bs

/-- Stable insertion sort, modelling the deterministic ORDER BY. -/
def sortByLe {α : Type} (le : α → α → Bool) : List α → List α
  | [] => []
  | a :: as => insertSorted le a (sortByLe le as)

/-- One displayed session row: `(session_id, formatted_date,
formatted_price, pending)`. -/
abbrev SessionRow := Option Nat × String × String × Option Bool

/-- The `grouped_sessions` dictionary in insertion order: keys are
`(person_id, person_name)`. -/
abbrev Grouped := List ((Nat × String) × List SessionRow)

/-- `grouped_sessions[key].append(v)` on a `defaultdict(list)`: appends to
the existing key or inserts the key at the end with `[v]`. -/
def groupedAppend (g : Grouped) (k : Nat × String) (v : SessionRow) : Grouped :=
  if g.any (fun e => decide (e.1 = k)) then
    g.map fun e => if e.1 = k then (e.1, e.2 ++ [v]) else e
  else g ++ [(k, [v])]

/-- `person_id in [k[0] for k in grouped_sessions.keys()]`. -/
def hasPersonKey (g : Grouped) (pid : Nat) : Bool :=
  g.any fun e => decide (e.1.1 = pid)

/-- Python truthiness of the joined price column (a float: 0.0 is falsy). -/
def priceTruthy : Option ℚ → Bool
  | none => false
  | some q => !(q == 0)

/-- The row-walking loop of get_dashboard_data: count and group rows that
carry a (truthy) date and price, and register a session-less person's key
once with an empty list. -/
def dashLoop : List JoinRow → Grouped → Nat → Grouped × Nat
  | [], g, total => (g, total)
  | r :: rs, g, total =>
    if r.session_date.isSome && priceTruthy r.session_price then
      dashLoop rs
        (groupedAppend g (r.person_id, r.name)
          ( r.session_id
          , (match r.session_date with | some d => format_date d | none => "")
          , (match r.session_price with
             | some q => if q == 0 then "" else format_price q
             | none => "")
          , r.pending ))
        (total + 1)
    else if !(hasPersonKey g r.person_id) then
      dashLoop rs (g ++ [((r.person_id, r.name), [])]) total
    else dashLoop rs g total

/-- The dictionary get_dashboard_data returns. -/
structure DashboardData where
  grouped_sessions : Grouped
  total : Nat
  filter : String
deriving Repr

/-- PatientService.get_dashboard_data (app/services/patient_service.py
lines 268-331): outer-join active persons with active sessions, apply the
pending/paid WHERE filter, order by name then date, then group. -/
def PatientService.get_dashboard_data (st : DBState) (show_filter : String) :
    DashboardData :=
  let rows := sortByLe rowLe
    (filterRows show_filter
      (rowsOfPersons st (st.persons.filter fun p => p.deleted_at.isNone)))
  ⟨(dashLoop rows [] 0).1, (dashLoop rows [] 0).2, show_filter⟩

/-! ### Shared lemmas and witness fixtures -/

/-- Fixture: one active patient. -/
def wPerson : Person := ⟨1, "Ana", none, true, some 1, none, none, none⟩

/-- Fixture: one active pending session of `wPerson`, priced 100, dated
2024-01-15 (ordinal 738900). -/
def wSession : TherapySession := ⟨1, 1, 738900, 100, true, none, some 1, none, none, none⟩

/-- Fixture: the store holding `wPerson` and `wSession`. -/
def wState : DBState := ⟨[wPerson], [wSession], [], 2, 2⟩

/-- find? commutes with a map that does not change the predicate. -/
theorem find?_map_pred {α : Type} (p : α → Bool) (f : α → α) (l : List α)
    (hf : ∀ a, p (f a) = p a) :
    (l.map f).find? p = (l.find? p).map f := by
  induction l with
  | nil => rfl
  | cons a as ih =>
    cases h : p a with
    | false =>
      have h1 : ¬ p (f a) = true := by rw [hf a, h]; simp
      have h2 : ¬ p a = true := by rw [h]; simp
      rw [List.map_cons, List.find?_cons_of_neg _ h1, List.find?_cons_of_neg _ h2, ih]
    | true =>
      have h1 : p (f a) = true := by rw [hf a, h]
      rw [List.map_cons, List.find?_cons_of_pos _ h1, List.find?_cons_of_pos _ h,
        Option.map_some']

/-! ### C10: soft-delete attribution -/

/-- C10 — For every soft delete performed through
SoftDeleteMixin.soft_delete, `deleted_at` is always set to the current
time, while `deleted_by_id` is assigned only when the user id is truthy:
with `none` (or `some 0`) the record's previous `deleted_by_id` is left
unchanged, so a soft-deleted record can carry `deleted_at` with no, or a
stale, attribution. -/
theorem C10_soft_delete_attribution (p : Person) (s : TherapySession)
    (uid : Option Int) (now : Nat) :
    (p.soft_delete uid now).deleted_at = some now
  ∧ (p.soft_delete uid now).deleted_by_id =
      (if truthy uid then uid else p.deleted_by_id)
  ∧ (p.soft_delete none now).deleted_by_id = p.deleted_by_id
  ∧ (p.soft_delete (some 0) now).deleted_by_id = p.deleted_by_id
  ∧ (s.soft_delete uid now).deleted_at = some now
  ∧ (s.soft_delete uid now).deleted_by_id =
      (if truthy uid then uid else s.deleted_by_id) :=
  ⟨rfl, rfl, by simp [Person.soft_delete, truthy],
   by simp [Person.soft_delete, truthy], rfl, rfl⟩

/-! ### C9: unknown dashboard filter tokens behave as `all` -/

/-- C9 — For every filter string other than `pending` and `paid`,
get_dashboard_data produces exactly the same grouped sessions and total as
get_dashboard_data "all". -/
theorem C9_unknown_filter (st : DBState) (f : String)
    (h1 : f ≠ "pending") (h2 : f ≠ "paid") :
    (PatientService.get_dashboard_data st f).grouped_sessions
      = (PatientService.get_dashboard_data st ALL_FILTER).grouped_sessions
  ∧ (PatientService.get_dashboard_data st f).total
      = (PatientService.get_dashboard_data st ALL_FILTER).total := by
  have hf : ∀ rows, filterRows f rows = filterRows ALL_FILTER rows := by
    intro rows
    simp [filterRows, PENDING_FILTER, PAID_FILTER, ALL_FILTER, h1, h2]
  constructor <;> simp [PatientService.get_dashboard_data, hf]

/-- Witness for C9 at the token "bogus" on the fixture store. -/
theorem C9_unknown_filter_witness :
    ("bogus" ≠ "pending" ∧ "bogus" ≠ "paid")
  ∧ (PatientService.get_dashboard_data wState "bogus").grouped_sessions
      = (PatientService.get_dashboard_data wState ALL_FILTER).grouped_sessions
  ∧ (PatientService.get_dashboard_data wState "bogus").total
      = (PatientService.get_dashboard_data wState ALL_FILTER).total :=
  ⟨⟨by decide, by decide⟩, C9_unknown_filter wState "bogus" (by decide) (by decide)⟩

/-! ### C7: the 7-day advance-scheduling boundary -/

/-- C7 — For every active person and positive price, SessionService.create
succeeds at `today + 7`, fails at `today + 8` with the advance-scheduling
message, and accepts any date at most `today + 7` — in particular dates
arbitrarily far in the past (no lower bound). -/
theorem C7_date_boundary (st : DBState) (pid : Nat) (price : ℚ) (uid : Option Int)
    (pend : Bool) (nts : Option String) (today : Int) (p : Person)
    (hp : Person.query_active_by_id st pid = some p) (hprice : 0 < price) :
    (SessionService.create st pid (today + 7) price uid pend nts today).2.1 = true
  ∧ SessionService.create st pid (today + 8) price uid pend nts today
      = (st, false, none, "No se pueden agendar sesiones con más de 7 días de anticipación.")
  ∧ ∀ d : Int, d ≤ today + 7 →
      (SessionService.create st pid d price uid pend nts today).2.1 = true := by
  have hnle : ¬ price ≤ 0 := not_le.mpr hprice
  refine ⟨?_, ?_, ?_⟩
  · simp [SessionService.create, hp, hnle]
  · simp [SessionService.create, hp, hnle]
  · intro d hd
    have hlt : ¬ d > today + 7 := not_lt.mpr hd
    simp [SessionService.create, hp, hnle, hlt]

/-- Witness for C7 on the fixture store: person 1 is active and the price
100 is positive. -/
theorem C7_date_boundary_witness :
    (Person.query_active_by_id wState 1 = some wPerson ∧ (0 : ℚ) < 100)
  ∧ (SessionService.create wState 1 (738900 + 7) 100 (some 1) true none 738900).2.1 = true
  ∧ SessionService.create wState 1 (738900 + 8) 100 (some 1) true none 738900
      = (wState, false, none, "No se pueden agendar sesiones con más de 7 días de anticipación.")
  ∧ ∀ d : Int, d ≤ 738900 + 7 →
      (SessionService.create wState 1 d 100 (some 1) true none 738900).2.1 = true :=
  ⟨⟨rfl, by decide⟩,
   C7_date_boundary wState 1 100 (some 1) true none 738900 wPerson rfl (by decide)⟩

/-! ### C8: the strict price check -/

/-- C8 — Given an active person (for create) and an active session (for
update), both SessionService.create and SessionService.update reject with
the `(false, none, price-message)` result exactly when the price is `≤ 0`;
with a positive price — 0.01 in particular — the price check passes:
create never returns the price message and update succeeds outright.  Both
rejection paths return normally (the embedding is a total function). -/
theorem C8_price_boundary (st : DBState) (pid sid : Nat) (d : Int) (price : ℚ)
    (uid : Option Int) (pend : Bool) (pendU : Option Bool) (nts : Option String)
    (today : Int) (p : Person) (s : TherapySession)
    (hp : Person.query_active_by_id st pid = some p)
    (hs : SessionService.get_by_id st sid = some s) :
    (price ≤ 0 →
       SessionService.create st pid d price uid pend nts today
         = (st, false, none, "El precio debe ser mayor a cero.")
     ∧ SessionService.update st sid d price uid pendU nts
         = (st, false, none, "El precio debe ser mayor a cero."))
  ∧ (0 < price →
       (SessionService.create st pid d price uid pend nts today).2.2.2
          ≠ "El precio debe ser mayor a cero."
     ∧ (SessionService.update st sid d price uid pendU nts).2.1 = true
     ∧ (SessionService.update st sid d price uid pendU nts).2.2.2
          = "Sesión actualizada correctamente.") := by
  constructor
  · intro hle
    constructor
    · simp [SessionService.create, hp, hle]
    · simp [SessionService.update, hs, hle]
  · intro hpos
    have hnle : ¬ price ≤ 0 := not_le.mpr hpos
    refine ⟨?_, ?_, ?_⟩
    · by_cases hd : d > today + 7 <;> simp [SessionService.create, hp, hnle, hd]
    · simp [SessionService.update, hs, hnle]
    · simp [SessionService.update, hs, hnle]

/-- Witness for C8 at price 0.01 (`mkRat 1 100`) on the fixture store. -/
theorem C8_price_boundary_witness :
    (Person.query_active_by_id wState 1 = some wPerson
     ∧ SessionService.get_by_id wState 1 = some wSession)
  ∧ ((mkRat 1 100 ≤ 0 →
       SessionService.create wState 1 738900 (mkRat 1 100) (some 1) true none 738900
         = (wState, false, none, "El precio debe ser mayor a cero.")
     ∧ SessionService.update wState 1 738900 (mkRat 1 100) (some 1) none none
         = (wState, false, none, "El precio debe ser mayor a cero."))
  ∧ (0 < mkRat 1 100 →
       (SessionService.create wState 1 738900 (mkRat 1 100) (some 1) true none 738900).2.2.2
          ≠ "El precio debe ser mayor a cero."
     ∧ (SessionService.update wState 1 738900 (mkRat 1 100) (some 1) none none).2.1 = true
     ∧ (SessionService.update wState 1 738900 (mkRat 1 100) (some 1) none none).2.2.2
          = "Sesión actualizada correctamente.")) :=
  ⟨⟨rfl, rfl⟩,
   C8_price_boundary wState 1 1 738900 (mkRat 1 100) (some 1) true none none 738900
     wPerson wSession rfl rfl⟩

/-! ### C6: toggling payment status twice -/

/-- After the in-place toggle of the session a lookup found, the same
lookup finds the toggled session (a toggle changes neither `id` nor
`deleted_at`). -/
theorem toggle_find (l : List TherapySession) (sid : Nat) (uid : Option Int)
    (s : TherapySession)
    (hfind : l.find? (fun t => t.deleted_at.isNone && t.id == sid) = some s) :
    (l.map (fun t => if t.id == s.id then t.toggle_pending uid else t)).find?
      (fun t => t.deleted_at.isNone && t.id == sid) = some (s.toggle_pending uid) := by
  rw [find?_map_pred (fun t => t.deleted_at.isNone && t.id == sid)
        (fun t => if t.id == s.id then t.toggle_pending uid else t) l
        (fun t => by
          by_cases h : (t.id == s.id) = true <;> simp [h, TherapySession.toggle_pending]),
      hfind, Option.map_some']
  simp

/-- C6 — For every active session with `pending = v`, toggling twice
leaves `pending = v`: each of the two calls succeeds and returns the new
pending value (`!v`, then `v`), and each call appends exactly one UPDATE
audit entry on `therapy_sessions` recording the old and the new `pending`
value. -/
theorem C6_toggle_twice (st : DBState) (sid : Nat) (uid uid2 : Option Int)
    (s : TherapySession) (hs : SessionService.get_by_id st sid = some s) :
    (SessionService.toggle_payment_status st sid uid).2.1 = true
  ∧ (SessionService.toggle_payment_status st sid uid).2.2.1 = some (!s.pending)
  ∧ (SessionService.toggle_payment_status st sid uid).1.audit_logs
      = st.audit_logs
        ++ [⟨"UPDATE", "therapy_sessions", some s.id, uid,
             some [("pending", AVal.vb s.pending)],
             some [("pending", AVal.vb (!s.pending))]⟩]
  ∧ (SessionService.toggle_payment_status
        (SessionService.toggle_payment_status st sid uid).1 sid uid2).2.1 = true
  ∧ (SessionService.toggle_payment_status
        (SessionService.toggle_payment_status st sid uid).1 sid uid2).2.2.1
      = some s.pending
  ∧ (SessionService.toggle_payment_status
        (SessionService.toggle_payment_status st sid uid).1 sid uid2).1.audit_logs
      = (SessionService.toggle_payment_status st sid uid).1.audit_logs
        ++ [⟨"UPDATE", "therapy_sessions", some s.id, uid2,
             some [("pending", AVal.vb (!s.pending))],
             some [("pending", AVal.vb s.pending)]⟩]
  ∧ (SessionService.get_by_id
        (SessionService.toggle_payment_status
          (SessionService.toggle_payment_status st sid uid).1 sid uid2).1 sid).map
        (fun t => t.pending)
      = some s.pending := by
  have hfind : st.sessions.find? (fun t => t.deleted_at.isNone && t.id == sid) = some s := hs
  have hmap1 := toggle_find st.sessions sid uid s hfind
  have hs1 : SessionService.get_by_id (SessionService.toggle_payment_status st sid uid).1 sid
      = some (s.toggle_pending uid) := by
    simp only [SessionService.toggle_payment_status, SessionService.get_by_id,
      TherapySession.query_active_by_id, hfind]
    exact hmap1
  have hsid : (s.toggle_pending uid).id = s.id := rfl
  have hpend : (s.toggle_pending uid).pending = !s.pending := rfl
  have hs2 : SessionService.get_by_id
      (SessionService.toggle_payment_status
        (SessionService.toggle_payment_status st sid uid).1 sid uid2).1 sid
      = some ((s.toggle_pending uid).toggle_pending uid2) := by
    have hfind1 : (SessionService.toggle_payment_status st sid uid).1.sessions.find?
        (fun t => t.deleted_at.isNone && t.id == sid) = some (s.toggle_pending uid) := hs1
    have hmap2 := toggle_find (SessionService.toggle_payment_status st sid uid).1.sessions
      sid uid2 (s.toggle_pending uid) hfind1
    simp only [SessionService.toggle_payment_status, SessionService.get_by_id,
      TherapySession.query_active_by_id] at hmap2 hfind1 ⊢
    rw [hfind1]
    exact hmap2
  have hs1' := hs1
  simp [SessionService.toggle_payment_status, hs] at hs1'
  refine ⟨?_, ?_, ?_, ?_, ?_, ?_, ?_⟩
  · simp [SessionService.toggle_payment_status, hs]
  · simp [SessionService.toggle_payment_status, hs]
  · simp [SessionService.toggle_payment_status, hs]
  · simp [SessionService.toggle_payment_status, hs, hs1']
  · simp [SessionService.toggle_payment_status, hs, hs1', hpend]
  · simp [SessionService.toggle_payment_status, hs, hs1', hsid, hpend]
  · rw [hs2]
    simp [TherapySession.toggle_pending]

/-- Witness for C6 on the fixture store: session 1 is active with
`pending = true`. -/
theorem C6_toggle_twice_witness :
    SessionService.get_by_id wState 1 = some wSession
  ∧ ((SessionService.toggle_payment_status wState 1 (some 3)).2.1 = true
  ∧ (SessionService.toggle_payment_status wState 1 (some 3)).2.2.1 = some (!wSession.pending)
  ∧ (SessionService.toggle_payment_status wState 1 (some 3)).1.audit_logs
      = wState.audit_logs
        ++ [⟨"UPDATE", "therapy_sessions", some wSession.id, some 3,
             some [("pending", AVal.vb wSession.pending)],
             some [("pending", AVal.vb (!wSession.pending))]⟩]
  ∧ (SessionService.toggle_payment_status
        (SessionService.toggle_payment_status wState 1 (some 3)).1 1 (some 4)).2.1 = true
  ∧ (SessionService.toggle_payment_status
        (SessionService.toggle_payment_status wState 1 (some 3)).1 1 (some 4)).2.2.1
      = some wSession.pending
  ∧ (SessionService.toggle_payment_status
        (SessionService.toggle_payment_status wState 1 (some 3)).1 1 (some 4)).1.audit_logs
      = (SessionService.toggle_payment_status wState 1 (some 3)).1.audit_logs
        ++ [⟨"UPDATE", "therapy_sessions", some wSession.id, some 4,
             some [("pending", AVal.vb (!wSession.pending))],
             some [("pending", AVal.vb wSession.pending)]⟩]
  ∧ (SessionService.get_by_id
        (SessionService.toggle_payment_status
          (SessionService.toggle_payment_status wState 1 (some 3)).1 1 (some 4)).1 1).map
        (fun t => t.pending)
      = some wSession.pending) :=
  ⟨rfl, C6_toggle_twice wState 1 (some 3) (some 4) wSession rfl⟩

/-! ### C4: the soft-delete cascade overwrites already-deleted sessions -/

/-- C4 scenario, step 1: a fresh store with patient "Ana" (id 1). -/
def stC4a : DBState := (PatientService.create ⟨[], [], [], 1, 1⟩ "Ana" (some 1) none).1

/-- C4 scenario, step 2: a pending session (id 1) of patient 1. -/
def stC4b : DBState := (SessionService.create stC4a 1 738900 100 (some 1) true none 738900).1

/-- C4 scenario, step 3: session 1 is soft-deleted on its own by user 7 at
time 5. -/
def stC4pre : DBState := (SessionService.delete stC4b 1 (some 7) true 5).1

/-- C4 counterexample — in `stC4pre` session 1 is already soft-deleted
with `deleted_at = 5`, `deleted_by_id = 7`; the claim says
PatientService.delete(person 1, soft) leaves those fields unchanged, but
after the call they read `deleted_at = 100`, `deleted_by_id = 9`: the
cascade re-soft-deletes the already-deleted session. -/
theorem C4_cascade_counterexample :
    ((stC4pre.sessions.find? fun t => t.id == 1).map fun t =>
        (t.deleted_at, t.deleted_by_id))
      = some (some 5, some 7)
  ∧ (((PatientService.delete stC4pre 1 (some 9) true 100).1.sessions.find?
        fun t => t.id == 1).map fun t => (t.deleted_at, t.deleted_by_id))
      = some (some 100, some 9) :=
  ⟨rfl, rfl⟩

/-- C4 (amended) — PatientService.delete with soft=true cascades the
soft-delete to every session of the person, already-deleted ones
included: each such session is replaced by its `soft_delete user_id now`
image (so its `deleted_at` is overwritten with the deletion time, and its
`deleted_by_id` with the user when truthy), every session of the person
ends with `deleted_at = some now`, and only sessions of other persons are
left unchanged. -/
theorem C4_cascade_overwrites (st : DBState) (pid : Nat) (uid : Option Int) (now : Nat)
    (p : Person) (hp : PatientService.get_by_id st pid = some p) :
    (PatientService.delete st pid uid true now).2.1 = true
  ∧ (∀ s ∈ st.sessions, s.person_id = p.id →
        s.soft_delete uid now ∈ (PatientService.delete st pid uid true now).1.sessions)
  ∧ (∀ s ∈ st.sessions, s.person_id ≠ p.id →
        s ∈ (PatientService.delete st pid uid true now).1.sessions)
  ∧ (∀ s' ∈ (PatientService.delete st pid uid true now).1.sessions,
        s'.person_id = p.id → s'.deleted_at = some now) := by
  have hsess : (PatientService.delete st pid uid true now).1.sessions
      = st.sessions.map (fun s => if s.person_id == p.id then s.soft_delete uid now else s) := by
    simp [PatientService.delete, hp]
  refine ⟨?_, ?_, ?_, ?_⟩
  · simp [PatientService.delete, hp]
  · intro s hsmem hpid
    rw [hsess]
    exact List.mem_map.mpr ⟨s, hsmem, by simp [hpid]⟩
  · intro s hsmem hpid
    rw [hsess]
    exact List.mem_map.mpr ⟨s, hsmem, by simp [hpid]⟩
  · intro s' hmem hpid'
    rw [hsess] at hmem
    obtain ⟨s, hsmem, rfl⟩ := List.mem_map.mp hmem
    by_cases h : (s.person_id == p.id) = true
    · simp [h, TherapySession.soft_delete]
    · rw [if_neg h] at hpid' ⊢
      exact absurd hpid' (by simpa using h)

/-- Fixture: a session of person 1 that is already soft-deleted (at time
5 by user 7). -/
def wDelSession : TherapySession := ⟨1, 1, 738900, 100, true, none, some 1, none, some 5, some 7⟩

/-- Fixture: active person 1 owning only the already-deleted session. -/
def wState2 : DBState := ⟨[wPerson], [wDelSession], [], 2, 2⟩

/-- Witness for the amended C4 on a store whose only session is already
soft-deleted. -/
theorem C4_cascade_overwrites_witness :
    PatientService.get_by_id wState2 1 = some wPerson
  ∧ ((PatientService.delete wState2 1 (some 9) true 100).2.1 = true
  ∧ (∀ s ∈ wState2.sessions, s.person_id = wPerson.id →
        s.soft_delete (some 9) 100 ∈ (PatientService.delete wState2 1 (some 9) true 100).1.sessions)
  ∧ (∀ s ∈ wState2.sessions, s.person_id ≠ wPerson.id →
        s ∈ (PatientService.delete wState2 1 (some 9) true 100).1.sessions)
  ∧ (∀ s' ∈ (PatientService.delete wState2 1 (some 9) true 100).1.sessions,
        s'.person_id = wPerson.id → s'.deleted_at = some 100)) :=
  ⟨rfl, C4_cascade_overwrites wState2 1 (some 9) 100 wPerson rfl⟩

/-! ### C1: restoring a patient restores all of its sessions -/

/-- C1 scenario, step 1: patient "Ana" (id 1). -/
def stC1a : DBState := (PatientService.create ⟨[], [], [], 1, 1⟩ "Ana" (some 1) none).1

/-- C1 scenario, step 2: pending session 1 of patient 1. -/
def stC1b : DBState := (SessionService.create stC1a 1 738900 100 (some 1) true none 738900).1

/-- C1 scenario, step 3: pending session 2 of patient 1. -/
def stC1c : DBState := (SessionService.create stC1b 1 738901 50 (some 1) true none 738900).1

/-- C1 scenario, step 4: session 2 is soft-deleted independently (by user
7 at time 10), before any patient deletion. -/
def stC1d : DBState := (SessionService.delete stC1c 2 (some 7) true 10).1

/-- C1 scenario, step 5: patient 1 is soft-deleted (by user 9 at time
20), cascading over both sessions. -/
def stC1e : DBState := (PatientService.delete stC1d 1 (some 9) true 20).1

/-- C1 scenario, step 6: patient 1 is restored. -/
def stC1f : DBState := (PatientService.restore stC1e 1 (some 9)).1

/-- C1 counterexample — session 2 was soft-deleted independently before
the PatientService.delete of its person; the claim says it remains
soft-deleted after PatientService.restore, but in the final state it is
no longer deleted: restore clears the marks on every session of the
person. -/
theorem C1_restore_counterexample :
    ((stC1d.sessions.find? fun t => t.id == 2).map TherapySession.is_deleted = some true)
  ∧ ((stC1f.sessions.find? fun t => t.id == 2).map TherapySession.is_deleted = some false) :=
  ⟨rfl, rfl⟩

/-- C1 (amended) — when PatientService.restore succeeds on a soft-deleted
person, it clears `deleted_at` and `deleted_by_id` on the person and on
every one of the person's sessions — including sessions that were
soft-deleted independently before the delete of the person, not only the
ones deleted as part of that operation; sessions of other persons are
untouched, and one RESTORE audit entry is written. -/
theorem C1_restore_clears_all_sessions (st : DBState) (pid : Nat) (uid : Option Int)
    (p : Person) (hp : st.persons.find? (fun q => q.id == pid) = some p)
    (hdel : p.is_deleted = true) :
    (PatientService.restore st pid uid).2.1 = true
  ∧ (∀ q ∈ (PatientService.restore st pid uid).1.persons,
        q.id = p.id → q.deleted_at = none ∧ q.deleted_by_id = none)
  ∧ (∀ s' ∈ (PatientService.restore st pid uid).1.sessions,
        s'.person_id = p.id → s'.deleted_at = none ∧ s'.deleted_by_id = none)
  ∧ (∀ s ∈ st.sessions, s.person_id ≠ p.id →
        s ∈ (PatientService.restore st pid uid).1.sessions)
  ∧ (PatientService.restore st pid uid).1.audit_logs
      = st.audit_logs ++ [⟨"RESTORE", "persons", some pid, uid, none, none⟩] := by
  have hpers : (PatientService.restore st pid uid).1.persons
      = st.persons.map (fun q => if q.id == p.id then q.restore else q) := by
    simp [PatientService.restore, hp, hdel]
  have hsess : (PatientService.restore st pid uid).1.sessions
      = st.sessions.map (fun s => if s.person_id == p.id then s.restore else s) := by
    simp [PatientService.restore, hp, hdel]
  refine ⟨?_, ?_, ?_, ?_, ?_⟩
  · simp [PatientService.restore, hp, hdel]
  · intro q hqmem hqid
    rw [hpers] at hqmem
    obtain ⟨q0, hq0, rfl⟩ := List.mem_map.mp hqmem
    by_cases h : (q0.id == p.id) = true
    · simp [h, Person.restore]
    · rw [if_neg h] at hqid ⊢
      exact absurd hqid (by simpa using h)
  · intro s' hmem hpid'
    rw [hsess] at hmem
    obtain ⟨s, hsmem, rfl⟩ := List.mem_map.mp hmem
    by_cases h : (s.person_id == p.id) = true
    · simp [h, TherapySession.restore]
    · rw [if_neg h] at hpid' ⊢
      exact absurd hpid' (by simpa using h)
  · intro s hsmem hpid
    rw [hsess]
    exact List.mem_map.mpr ⟨s, hsmem, by simp [hpid]⟩
  · simp [PatientService.restore, hp, hdel]

/-- Fixture: person 1 soft-deleted at time 20 by user 9. -/
def wDelPerson : Person := ⟨1, "Ana", none, true, some 1, none, some 20, some 9⟩

/-- Fixture: deleted person 1 with one session deleted at an earlier
time (independently). -/
def wState3 : DBState := ⟨[wDelPerson], [wDelSession], [], 2, 2⟩

/-- Witness for the amended C1 on a store with a deleted person whose
session holds an older, independent deletion mark. -/
theorem C1_restore_clears_all_sessions_witness :
    (wState3.persons.find? (fun q => q.id == 1) = some wDelPerson
     ∧ wDelPerson.is_deleted = true)
  ∧ ((PatientService.restore wState3 1 (some 2)).2.1 = true
  ∧ (∀ q ∈ (PatientService.restore wState3 1 (some 2)).1.persons,
        q.id = wDelPerson.id → q.deleted_at = none ∧ q.deleted_by_id = none)
  ∧ (∀ s' ∈ (PatientService.restore wState3 1 (some 2)).1.sessions,
        s'.person_id = wDelPerson.id → s'.deleted_at = none ∧ s'.deleted_by_id = none)
  ∧ (∀ s ∈ wState3.sessions, s.person_id ≠ wDelPerson.id →
        s ∈ (PatientService.restore wState3 1 (some 2)).1.sessions)
  ∧ (PatientService.restore wState3 1 (some 2)).1.audit_logs
      = wState3.audit_logs ++ [⟨"RESTORE", "persons", some 1, some 2, none, none⟩]) :=
  ⟨⟨rfl, rfl⟩, C1_restore_clears_all_sessions wState3 1 (some 2) wDelPerson rfl rfl⟩

/-! ### C3: duplicate names and reuse after soft-delete -/

/-- C3 scenario, step 1: patient "Ana" (id 1). -/
def stC3a : DBState := (PatientService.create ⟨[], [], [], 1, 1⟩ "Ana" (some 1) none).1

/-- C3 scenario, step 2: patient 1 is soft-deleted. -/
def stC3b : DBState := (PatientService.delete stC3a 1 (some 1) true 5).1

/-- C3 counterexample — after patient "Ana" is soft-deleted, the claim
says a new PatientService.create("Ana") succeeds; instead the service's
active-only duplicate check passes but the storage UNIQUE constraint on
`persons.name` (which covers soft-deleted rows) makes the insert fail,
and create returns `(false, none, generic-error-message)`. -/
theorem C3_name_reuse_counterexample :
    ((stC3b.persons.find? fun q => q.id == 1).map Person.is_deleted = some true)
  ∧ (PatientService.create stC3b "Ana" (some 2) none).2.1 = false
  ∧ (PatientService.create stC3b "Ana" (some 2) none).2.2.2
      = "Error al crear el paciente. Intente nuevamente." :=
  ⟨rfl, rfl, rfl⟩

/-- C3 (amended) — while an active person carries the trimmed name N,
PatientService.create(N) fails with the duplicate-name result; after that
person is soft-deleted (names being storage-unique, it is the only row
named N), a subsequent create(N) still fails — not with the duplicate
message but with the generic creation-error message, because the
storage-level UNIQUE constraint on `persons.name` also covers
soft-deleted rows, so a soft-deleted person's name cannot actually be
reused. -/
theorem C3_name_reuse (st : DBState) (nm : String) (uid u2 : Option Int)
    (nts : Option String) (now : Nat) (p : Person)
    (hne : (pyStrip nm == "") = false)
    (hp : Person.get_by_name st (pyStrip nm) = some p)
    (huniq : ∀ q ∈ st.persons, q.name = pyStrip nm → q.id = p.id) :
    PatientService.create st nm uid nts
      = (st, false, none, "Ya existe un paciente con ese nombre.")
  ∧ (PatientService.create (PatientService.delete st p.id u2 true now).1 nm uid nts).2.1
      = false
  ∧ (PatientService.create (PatientService.delete st p.id u2 true now).1 nm uid nts).2.2.2
      = "Error al crear el paciente. Intente nuevamente." := by
  have hpmem : p ∈ st.persons := List.mem_of_find?_eq_some hp
  have hppred := List.find?_some hp
  have hppred' : p.deleted_at.isNone = true ∧ (p.name == pyStrip nm) = true := by
    simpa only [Bool.and_eq_true] using hppred
  have hpact : p.deleted_at = none := Option.isNone_iff_eq_none.mp hppred'.1
  have hpname : p.name = pyStrip nm := eq_of_beq hppred'.2
  have hqex : ∃ q, PatientService.get_by_id st p.id = some q := by
    cases hfq : PatientService.get_by_id st p.id with
    | some q => exact ⟨q, rfl⟩
    | none =>
      exfalso
      simp only [PatientService.get_by_id, Person.query_active_by_id] at hfq
      have := List.find?_eq_none.mp hfq p hpmem
      apply this
      simp [hpact]
  obtain ⟨q, hq⟩ := hqex
  have hqid : q.id = p.id := by
    have hqpred := List.find?_some
      (by simpa only [PatientService.get_by_id, Person.query_active_by_id] using hq)
    have hqpred' : q.deleted_at.isNone = true ∧ (q.id == p.id) = true := by
      simpa only [Bool.and_eq_true] using hqpred
    exact eq_of_beq hqpred'.2
  have hdel : (PatientService.delete st p.id u2 true now).1.persons
      = st.persons.map (fun x => if x.id == q.id then x.soft_delete u2 now else x) := by
    simp [PatientService.delete, hq]
  have hnone : Person.get_by_name (PatientService.delete st p.id u2 true now).1 (pyStrip nm)
      = none := by
    unfold Person.get_by_name
    rw [hdel]
    apply List.find?_eq_none.mpr
    intro x hx
    obtain ⟨x0, hx0, rfl⟩ := List.mem_map.mp hx
    by_cases hid : (x0.id == q.id) = true
    · simp [hid, Person.soft_delete]
    · rw [if_neg hid]
      intro hcontra
      have hcontra' : x0.deleted_at.isNone = true ∧ (x0.name == pyStrip nm) = true := by
        simpa only [Bool.and_eq_true] using hcontra
      have hx0id : x0.id = p.id := huniq x0 hx0 (eq_of_beq hcontra'.2)
      exact hid (by simp [hx0id, hqid])
  have hany : ((PatientService.delete st p.id u2 true now).1.persons.any
      (fun x => x.name == pyStrip nm)) = true := by
    rw [hdel]
    apply List.any_eq_true.mpr
    refine ⟨(if (p.id == q.id) = true then p.soft_delete u2 now else p),
      List.mem_map.mpr ⟨p, hpmem, rfl⟩, ?_⟩
    by_cases hid : (p.id == q.id) = true <;> simp [hid, Person.soft_delete, hpname]
  refine ⟨?_, ?_, ?_⟩
  · simp [PatientService.create, hne, hp]
  · simp [PatientService.create, hne, hnone, hany]
  · simp [PatientService.create, hne, hnone, hany]

/-- Fixture: the store holding only the active person 1, no sessions. -/
def wState4 : DBState := ⟨[wPerson], [], [], 2, 1⟩

/-- Witness for the amended C3 with the active person "Ana". -/
theorem C3_name_reuse_witness :
    ((pyStrip "Ana" == "") = false
     ∧ Person.get_by_name wState4 (pyStrip "Ana") = some wPerson
     ∧ ∀ q ∈ wState4.persons, q.name = pyStrip "Ana" → q.id = wPerson.id)
  ∧ (PatientService.create wState4 "Ana" (some 2) none
      = (wState4, false, none, "Ya existe un paciente con ese nombre.")
  ∧ (PatientService.create (PatientService.delete wState4 wPerson.id (some 2) true 5).1
        "Ana" (some 2) none).2.1 = false
  ∧ (PatientService.create (PatientService.delete wState4 wPerson.id (some 2) true 5).1
        "Ana" (some 2) none).2.2.2
      = "Error al crear el paciente. Intente nuevamente.") :=
  ⟨⟨rfl, rfl, by decide⟩,
   C3_name_reuse wState4 "Ana" (some 2) (some 2) none 5 wPerson rfl rfl (by decide)⟩

/-! ### C5: Person.pending_total versus SessionService.calculate_totals -/

/-- C5 counterexample — in `stC1d` patient 1 has an active pending
session priced 100 and a soft-deleted pending session priced 50;
`Person.pending_total` (which never filters out soft-deleted sessions)
yields 150 while `calculate_totals` (active sessions only) yields 100. -/
theorem C5_pending_total_counterexample :
    ((PatientService.get_by_id stC1d 1).map fun p => p.pending_total stC1d) = some 150
  ∧ (SessionService.calculate_totals stC1d (some 1)).pending_total = 100
  ∧ (150 : ℚ) ≠ 100 := by
  have h1 : PatientService.get_by_id stC1d 1
      = some ⟨1, "Ana", none, true, some 1, none, none, none⟩ := rfl
  have h2 : (Person.pending_sessions ⟨1, "Ana", none, true, some 1, none, none, none⟩
      stC1d).map (fun s => s.session_price) = [100, 50] := rfl
  have h3 : ((SessionService.calculate_totals stC1d (some 1)).pending_total : ℚ)
      = ([100] : List ℚ).sum := rfl
  refine ⟨?_, ?_, by norm_num⟩
  · rw [h1, Option.map_some']
    have h4 : Person.pending_total ⟨1, "Ana", none, true, some 1, none, none, none⟩ stC1d
        = 150 := by
      rw [Person.pending_total, h2]
      norm_num
    rw [h4]
  · rw [h3]
    norm_num

/-- C5 (amended) — `Person.pending_total` sums `session_price` over all
of the person's pending sessions, soft-deleted ones included, while
`calculate_totals` sums over active sessions only; the two agree exactly
on persons none of whose pending sessions is soft-deleted (and whose id
is non-zero, since `calculate_totals` treats a zero id as "no patient
scope" by Python truthiness). -/
theorem C5_pending_total_refinement (st : DBState) (p : Person)
    (hid : p.id ≠ 0)
    (hnodel : ∀ s ∈ st.sessions, s.person_id = p.id → s.pending = true →
        s.deleted_at = none) :
    p.pending_total st = (SessionService.calculate_totals st (some p.id)).pending_total := by
  have hq : truthyNat (some p.id) = true := by simp [truthyNat, hid]
  have hlist : (st.sessions.filter (fun s => s.person_id == p.id)).filter (fun s => s.pending)
      = ((st.sessions.filter fun s => s.deleted_at.isNone).filter
          (fun s => some s.person_id == some p.id)).filter (fun s => s.pending) := by
    rw [List.filter_filter, List.filter_filter, List.filter_filter]
    apply List.filter_congr
    intro x hx
    cases hxp : x.pending with
    | false => by_cases hpid : x.person_id = p.id <;> simp [hxp, hpid]
    | true =>
      by_cases hpid : x.person_id = p.id
      · simp [hxp, hpid, hnodel x hx hpid hxp]
      · simp [hxp, hpid]
  simp only [Person.pending_total, Person.pending_sessions, Person.therapy_sessions]
  rw [hlist]
  simp [SessionService.calculate_totals, DBState.activeSessions, hq]

/-- Witness for the amended C5 on the fixture store, whose only session
is active and pending. -/
theorem C5_pending_total_refinement_witness :
    (wPerson.id ≠ 0
     ∧ ∀ s ∈ wState.sessions, s.person_id = wPerson.id → s.pending = true →
         s.deleted_at = none)
  ∧ wPerson.pending_total wState
      = (SessionService.calculate_totals wState (some wPerson.id)).pending_total :=
  ⟨⟨by decide, by decide⟩,
   C5_pending_total_refinement wState wPerson (by decide) (by decide)⟩

/-! ### C2: dashboard visibility of patients under the three filters -/

/-- Membership in a stable insertion. -/
theorem mem_insertSorted {α : Type} (le : α → α → Bool) (a x : α) (l : List α) :
    x ∈ insertSorted le a l ↔ x = a ∨ x ∈ l := by
  induction l with
  | nil => simp [insertSorted]
  | cons b bs ih =>
    simp only [insertSorted]
    split
    · simp [List.mem_cons]
    · simp only [List.mem_cons, ih]
      tauto

/-- Sorting for the ORDER BY does not change membership. -/
theorem mem_sortByLe {α : Type} (le : α → α → Bool) (x : α) (l : List α) :
    x ∈ sortByLe le l ↔ x ∈ l := by
  induction l with
  | nil => simp [sortByLe]
  | cons a as ih => simp [sortByLe, mem_insertSorted, ih]

/-- Updating the value at a key keeps every key of the dictionary. -/
theorem any_key_map_update (g : Grouped) (k : Nat × String) (v : SessionRow) (pid : Nat) :
    ((g.map fun e => if e.1 = k then (e.1, e.2 ++ [v]) else e).any
        fun e => decide (e.1.1 = pid))
      = (g.any fun e => decide (e.1.1 = pid)) := by
  rw [List.any_map]
  congr 1
  funext e
  by_cases h : e.1 = k <;> simp [h]

/-- After appending a row under key `k`, `k`'s person id is a key. -/
theorem groupedAppend_key_self (g : Grouped) (k : Nat × String) (v : SessionRow) :
    hasPersonKey (groupedAppend g k v) k.1 = true := by
  unfold groupedAppend hasPersonKey
  split
  case isTrue h =>
    rw [any_key_map_update]
    obtain ⟨e, he, hek⟩ := List.any_eq_true.mp h
    exact List.any_eq_true.mpr ⟨e, he, by simp [of_decide_eq_true hek]⟩
  case isFalse h =>
    rw [List.any_append]
    simp

/-- Appending a row never removes a key. -/
theorem groupedAppend_key_mono (g : Grouped) (k : Nat × String) (v : SessionRow)
    (pid : Nat) (h : hasPersonKey g pid = true) :
    hasPersonKey (groupedAppend g k v) pid = true := by
  unfold hasPersonKey at h ⊢
  unfold groupedAppend
  split
  · rw [any_key_map_update]
    exact h
  · rw [List.any_append]
    simp [h]

/-- A key of the dictionary after an append was a key before, or is the
appended key. -/
theorem groupedAppend_key_src (g : Grouped) (k : Nat × String) (v : SessionRow)
    (pid : Nat) (h : hasPersonKey (groupedAppend g k v) pid = true) :
    hasPersonKey g pid = true ∨ pid = k.1 := by
  unfold hasPersonKey at h ⊢
  unfold groupedAppend at h
  by_cases hc : (g.any fun e => decide (e.1 = k)) = true
  · rw [if_pos hc, any_key_map_update] at h
    exact Or.inl h
  · rw [if_neg hc, List.any_append] at h
    have h' : (g.any fun e => decide (e.1.1 = pid)) = true ∨ k.1 = pid := by simpa using h
    rcases h' with h' | h'
    · exact Or.inl h'
    · exact Or.inr h'.symm

/-- Keys only grow along the dashboard's grouping loop. -/
theorem dashLoop_key_mono : ∀ (rows : List JoinRow) (g : Grouped) (t pid : Nat),
    hasPersonKey g pid = true → hasPersonKey (dashLoop rows g t).1 pid = true := by
  intro rows
  induction rows with
  | nil =>
    intro g t pid h
    simpa [dashLoop] using h
  | cons r rs ih =>
    intro g t pid h
    simp only [dashLoop]
    split
    · exact ih _ _ _ (groupedAppend_key_mono _ _ _ _ h)
    · split
      · apply ih
        unfold hasPersonKey at h ⊢
        rw [List.any_append]
        simp [h]
      · exact ih _ _ _ h

/-- Every walked row leaves its person id among the keys. -/
theorem dashLoop_key_of_mem : ∀ (rows : List JoinRow) (g : Grouped) (t : Nat) (r : JoinRow),
    r ∈ rows → hasPersonKey (dashLoop rows g t).1 r.person_id = true := by
  intro rows
  induction rows with
  | nil =>
    intro g t r h
    simp at h
  | cons r0 rs ih =>
    intro g t r h
    rcases List.mem_cons.mp h with rfl | h'
    · simp only [dashLoop]
      split
      · exact dashLoop_key_mono _ _ _ _ (groupedAppend_key_self g (r.person_id, r.name) _)
      case isFalse =>
        split
        case isTrue h2 =>
          apply dashLoop_key_mono
          unfold hasPersonKey
          rw [List.any_append]
          simp
        case isFalse h2 =>
          apply dashLoop_key_mono
          simpa using h2
    · simp only [dashLoop]
      split
      · exact ih _ _ _ h'
      · split <;> exact ih _ _ _ h'

/-- A key of the grouping-loop result was a key initially or is the person
id of a walked row. -/
theorem dashLoop_key_src : ∀ (rows : List JoinRow) (g : Grouped) (t pid : Nat),
    hasPersonKey (dashLoop rows g t).1 pid = true →
    hasPersonKey g pid = true ∨ ∃ r ∈ rows, r.person_id = pid := by
  intro rows
  induction rows with
  | nil =>
    intro g t pid h
    exact Or.inl (by simpa [dashLoop] using h)
  | cons r0 rs ih =>
    intro g t pid h
    simp only [dashLoop] at h
    split at h
    · rcases ih _ _ _ h with hg | ⟨r, hr, hrp⟩
      · rcases groupedAppend_key_src _ _ _ _ hg with hg' | hpid
        · exact Or.inl hg'
        · exact Or.inr ⟨r0, by simp, hpid.symm⟩
      · exact Or.inr ⟨r, by simp [hr], hrp⟩
    · split at h
      · rcases ih _ _ _ h with hg | ⟨r, hr, hrp⟩
        · unfold hasPersonKey at hg
          rw [List.any_append] at hg
          have hg' : (g.any fun e => decide (e.1.1 = pid)) = true ∨ r0.person_id = pid := by
            simpa using hg
          rcases hg' with hg' | hg'
          · exact Or.inl hg'
          · exact Or.inr ⟨r0, by simp, hg'⟩
        · exact Or.inr ⟨r, by simp [hr], hrp⟩
      · rcases ih _ _ _ h with hg | ⟨r, hr, hrp⟩
        · exact Or.inl hg
        · exact Or.inr ⟨r, by simp [hr], hrp⟩

/-- Every person contributes at least one join row carrying its id. -/
theorem perPersonRows_self (st : DBState) (p : Person) :
    ∃ r ∈ perPersonRows st p, r.person_id = p.id := by
  rcases hf : st.sessions.filter (fun s => s.person_id == p.id && s.deleted_at.isNone) with
    _ | ⟨s, ss⟩ <;> simp only [perPersonRows, hf]
  · exact ⟨⟨p.id, p.name, none, none, none, none⟩, by simp, rfl⟩
  · exact ⟨⟨p.id, p.name, some s.id, some s.session_date, some s.session_price,
      some s.pending⟩, List.mem_map.mpr ⟨s, by simp, rfl⟩, rfl⟩

/-- Every join row of a person carries that person's id. -/
theorem perPersonRows_pid (st : DBState) (p : Person) (r : JoinRow)
    (h : r ∈ perPersonRows st p) : r.person_id = p.id := by
  rcases hf : st.sessions.filter (fun s => s.person_id == p.id && s.deleted_at.isNone) with
    _ | ⟨s, ss⟩ <;> simp only [perPersonRows, hf] at h
  · rw [List.mem_singleton.mp h]
  · obtain ⟨s0, hs0, rfl⟩ := List.mem_map.mp h
    rfl

/-- A join row with a non-NULL `pending` column comes from an active
session of the person with that pending value. -/
theorem perPersonRows_pending (st : DBState) (p : Person) (r : JoinRow) (b : Bool)
    (h : r ∈ perPersonRows st p) (hb : r.pending = some b) :
    ∃ s ∈ st.sessions, s.person_id = p.id ∧ s.deleted_at = none ∧ s.pending = b := by
  rcases hf : st.sessions.filter (fun s => s.person_id == p.id && s.deleted_at.isNone) with
    _ | ⟨s, ss⟩ <;> simp only [perPersonRows, hf] at h
  · rw [List.mem_singleton.mp h] at hb
    simp at hb
  · obtain ⟨s0, hs0, rfl⟩ := List.mem_map.mp h
    have hs0' : s0 ∈ st.sessions.filter
        (fun s => s.person_id == p.id && s.deleted_at.isNone) := by
      rw [hf]
      exact hs0
    have hmem := List.mem_filter.mp hs0'
    have hpred : (s0.person_id == p.id) = true ∧ s0.deleted_at.isNone = true := by
      simpa only [Bool.and_eq_true] using hmem.2
    exact ⟨s0, hmem.1, eq_of_beq hpred.1, Option.isNone_iff_eq_none.mp hpred.2,
      Option.some.inj hb⟩

/-- A row is in the outer join exactly when some listed person
contributes it. -/
theorem mem_rowsOfPersons (st : DBState) (ps : List Person) (r : JoinRow) :
    r ∈ rowsOfPersons st ps ↔ ∃ p ∈ ps, r ∈ perPersonRows st p := by
  induction ps with
  | nil => simp [rowsOfPersons]
  | cons p ps ih =>
    simp only [rowsOfPersons, List.mem_append, ih]
    constructor
    · rintro (h | ⟨q, hq, hr⟩)
      · exact ⟨p, by simp, h⟩
      · exact ⟨q, by simp [hq], hr⟩
    · rintro ⟨q, hq, hr⟩
      rcases List.mem_cons.mp hq with rfl | hq'
      · exact Or.inl hr
      · exact Or.inr ⟨q, hq', hr⟩

/-- When the WHERE filter restricts the joined rows to one pending value,
a key of the dashboard's dictionary can only be the id of a person with a
matching active session. -/
theorem dashboard_filter_key_src (st : DBState) (b : Bool) (pid : Nat) (f : String)
    (hf : filterRows f (rowsOfPersons st (st.persons.filter fun q => q.deleted_at.isNone))
        = (rowsOfPersons st (st.persons.filter fun q => q.deleted_at.isNone)).filter
            (fun r => r.pending == some b))
    (h : hasPersonKey (PatientService.get_dashboard_data st f).grouped_sessions pid = true) :
    ∃ s ∈ st.sessions, s.person_id = pid ∧ s.deleted_at = none ∧ s.pending = b := by
  simp only [PatientService.get_dashboard_data] at h
  rw [hf] at h
  rcases dashLoop_key_src _ _ _ _ h with hempty | ⟨r, hr, hrpid⟩
  · simp [hasPersonKey] at hempty
  · have hr' := (mem_sortByLe _ _ _).mp hr
    have hr'' := List.mem_filter.mp hr'
    have hpend : r.pending = some b := by simpa using hr''.2
    obtain ⟨p', hp', hrp⟩ := (mem_rowsOfPersons _ _ _).mp hr''.1
    have hpid' : r.person_id = p'.id := perPersonRows_pid _ _ _ hrp
    obtain ⟨s, hs, hs1, hs2, hs3⟩ := perPersonRows_pending _ _ _ _ hrp hpend
    exact ⟨s, hs, hs1.trans (hpid'.symm.trans hrpid), hs2, hs3⟩

/-- C2 (amended) — every active person appears as a key of
getDashboardData("all")'s grouped map, even with zero sessions; but under
the `pending` and `paid` filters a person id appears as a key only if the
person has an active session with the matching pending value — so a
person with no matching session (Person A with no sessions under
`pending`/`paid`, Person B with only a pending session under `paid`) is
omitted from the map entirely rather than kept with an empty sequence. -/
theorem C2_dashboard_visibility (st : DBState) (p : Person)
    (hmem : p ∈ st.persons) (hact : p.deleted_at = none) :
    hasPersonKey (PatientService.get_dashboard_data st ALL_FILTER).grouped_sessions p.id
      = true
  ∧ (∀ pid : Nat,
      hasPersonKey (PatientService.get_dashboard_data st PENDING_FILTER).grouped_sessions
        pid = true →
      ∃ s ∈ st.sessions, s.person_id = pid ∧ s.deleted_at = none ∧ s.pending = true)
  ∧ (∀ pid : Nat,
      hasPersonKey (PatientService.get_dashboard_data st PAID_FILTER).grouped_sessions
        pid = true →
      ∃ s ∈ st.sessions, s.person_id = pid ∧ s.deleted_at = none ∧ s.pending = false) := by
  refine ⟨?_, ?_, ?_⟩
  · have hpfilter : p ∈ st.persons.filter (fun q => q.deleted_at.isNone) :=
      List.mem_filter.mpr ⟨hmem, by simp [hact]⟩
    obtain ⟨r, hr, hrpid⟩ := perPersonRows_self st p
    have hrows : r ∈ rowsOfPersons st (st.persons.filter fun q => q.deleted_at.isNone) :=
      (mem_rowsOfPersons _ _ _).mpr ⟨p, hpfilter, hr⟩
    have hfall : filterRows ALL_FILTER
        (rowsOfPersons st (st.persons.filter fun q => q.deleted_at.isNone))
        = rowsOfPersons st (st.persons.filter fun q => q.deleted_at.isNone) := by
      simp [filterRows, ALL_FILTER, PENDING_FILTER, PAID_FILTER]
    simp only [PatientService.get_dashboard_data]
    rw [hfall]
    have := dashLoop_key_of_mem _ [] 0 r ((mem_sortByLe rowLe r _).mpr hrows)
    rwa [hrpid] at this
  · intro pid h
    exact dashboard_filter_key_src st true pid PENDING_FILTER
      (by simp [filterRows, PENDING_FILTER]) h
  · intro pid h
    exact dashboard_filter_key_src st false pid PAID_FILTER
      (by simp [filterRows, PAID_FILTER, PENDING_FILTER]) h

/-- C2 scenario, step 1: patient "A" (id 1), who will have no sessions. -/
def stC2a : DBState := (PatientService.create ⟨[], [], [], 1, 1⟩ "A" (some 1) none).1

/-- C2 scenario, step 2: patient "B" (id 2). -/
def stC2b : DBState := (PatientService.create stC2a "B" (some 1) none).1

/-- C2 scenario, step 3: one pending session priced 50 for patient B. -/
def stC2 : DBState := (SessionService.create stC2b 2 738900 50 (some 1) true none 738900).1

/-- C2 counterexample — with active Person A (id 1, no sessions) and
Person B (id 2, one pending session), the claim says A is a key of the
`pending` and `paid` results and B a key of the `paid` result; in fact A
appears only under `all`, and neither A nor B appears under `paid`: the
WHERE filter on the outer join drops the join-miss and non-matching rows
before grouping. -/
theorem C2_dashboard_counterexample :
    (PatientService.get_by_id stC2 1).isSome = true
  ∧ hasPersonKey (PatientService.get_dashboard_data stC2 "all").grouped_sessions 1 = true
  ∧ hasPersonKey (PatientService.get_dashboard_data stC2 "pending").grouped_sessions 1
      = false
  ∧ hasPersonKey (PatientService.get_dashboard_data stC2 "paid").grouped_sessions 1
      = false
  ∧ hasPersonKey (PatientService.get_dashboard_data stC2 "paid").grouped_sessions 2
      = false :=
  ⟨rfl, rfl, rfl, rfl, rfl⟩

/-- Witness for the amended C2 on the fixture store (active person 1 with
one active pending session). -/
theorem C2_dashboard_visibility_witness :
    (wPerson ∈ wState.persons ∧ wPerson.deleted_at = none)
  ∧ (hasPersonKey (PatientService.get_dashboard_data wState ALL_FILTER).grouped_sessions
        wPerson.id = true
  ∧ (∀ pid : Nat,
      hasPersonKey (PatientService.get_dashboard_data wState PENDING_FILTER).grouped_sessions
        pid = true →
      ∃ s ∈ wState.sessions, s.person_id = pid ∧ s.deleted_at = none ∧ s.pending = true)
  ∧ (∀ pid : Nat,
      hasPersonKey (PatientService.get_dashboard_data wState PAID_FILTER).grouped_sessions
        pid = true →
      ∃ s ∈ wState.sessions, s.person_id = pid ∧ s.deleted_at = none ∧ s.pending = false)) :=
  ⟨⟨by simp [wState], rfl⟩, C2_dashboard_visibility wState wPerson (by simp [wState]) rfl⟩
